import Mathlib

/-!
Verification of the temporal price-resolution logic of the two price
sources `ft.py` (Financial Times, provider A) and `tsp.py` (Thrift
Savings Plan, provider B) from the beanprice repository.

The Python code is shallowly embedded: network transport and JSON/CSV
decoding are collaborators, so fetched payloads appear as explicit
inputs (already decoded into Lean structures); `datetime` values are
modelled as a wall-clock reading in seconds together with an optional
fixed UTC offset (`none` = naive); `Decimal` is modelled as `ℚ`;
raised exceptions are modelled with `Except`.
-/

namespace Beanprice

/-- A Python `datetime`: `wall` is the wall-clock reading in seconds
since the epoch (the naive reading of the fields), `tz` is the fixed
UTC offset in seconds (`none` for a naive datetime). -/
structure DateTime where
  wall : Int
  tz : Option Int
deriving DecidableEq

/-- The absolute instant of a datetime in seconds: aware datetimes
compare by `wall - offset`; for a naive datetime this reads the wall
clock as if it were UTC (which is exactly how the sources normalise
naive inputs). -/
def DateTime.instant (d : DateTime) : Int :=
  d.wall - d.tz.getD 0

/-- `time.replace(tzinfo=datetime.timezone.utc)` applied only when the
input is naive: the wall-clock fields are kept and the datetime is
tagged UTC (ft.py lines 165-166). -/
def pyNormalizeUTC (t : DateTime) : DateTime :=
  match t.tz with
  | none => { t with tz := some 0 }
  | some _ => t

/-- Python `timedelta(...).days` for a delta of `delta` seconds:
floor division by 86400 (timedelta normalises so that `days` is the
floor). -/
def timedeltaDays (delta : Int) : Int :=
  Int.fdiv delta 86400

/-- One normalised history entry `{"time": ..., "price": ...}` as built
by `ft.py Source._fetch_history`. -/
structure PySample where
  time : DateTime
  price : ℚ
deriving DecidableEq

/-- The `beanprice.source.SourcePrice` record. -/
structure SourcePrice where
  price : ℚ
  time : DateTime
  currency : Option String
deriving DecidableEq

/-- The exception kinds that can cross the public operations of the two
sources: the two provider error classes, Python's `StopIteration`
(raised by `next` on an exhausted iterator), and a catch-all for any
other exception an external collaborator may raise. -/
inductive PyExc where
  | ftError (msg : String)
  | tspError (msg : String)
  | stopIteration
  | otherExc (msg : String)
deriving DecidableEq

/-- The message text carried by an exception. -/
def PyExc.msg : PyExc → String
  | .ftError m => m
  | .tspError m => m
  | .stopIteration => ""
  | .otherExc m => m

/-! ## Provider A: ft.py -/

/-- One entry of `"ComponentSeries"` in the FT chart-api response:
a `"Type"` tag and the `"Values"` list (a value is `none` for JSON
`null`). -/
structure FTSeries where
  stype : String
  values : List (Option ℚ)

/-- One entry of `"Elements"` in the FT response. -/
structure FTElement where
  etype : String
  componentSeries : List FTSeries

/-- The decoded FT chart-api JSON response: `"Dates"` (each date string
already run through `datetime.fromisoformat`, `none` when that parse
raises `ValueError`) and `"Elements"`.  Missing keys decode to `[]`
(`data.get(..., [])`). -/
structure FTResponse where
  dates : List (Option Int)
  elements : List FTElement

/-- The loop of `ft.py _fetch_history` lines 128-142: walk the dates
positionally; keep index `i` only when `i < len(closes)`, the close is
not `null` and the date parsed; the kept sample is tagged UTC
(`replace(tzinfo=datetime.timezone.utc)`). -/
def ft_build_history : List (Option Int) → List (Option ℚ) → List PySample
  | [], _ => []
  | _ :: ds, [] => ft_build_history ds []
  | d :: ds, c :: cs =>
    match c with
    | none => ft_build_history ds cs
    | some v =>
      match d with
      | none => ft_build_history ds cs
      | some w => ⟨⟨w, some 0⟩, v⟩ :: ft_build_history ds cs

/-- The `"Values"` of the first `"Close"` component series of the first
`"price"` element, defaulting to `[]` (ft.py lines 118-126). -/
def ft_closes (resp : FTResponse) : List (Option ℚ) :=
  match resp.elements.find? (fun e => e.etype == "price") with
  | none => []
  | some pc =>
    match pc.componentSeries.find? (fun s => s.stype == "Close") with
    | some s => s.values
    | none => []

/-- `ft.py Source._fetch_history` after JSON decoding (lines 113-142):
empty `Dates`/`Elements` or a missing `"price"` element give an empty
history, otherwise the positional pairing loop runs. -/
def ft_fetch_history (resp : FTResponse) : List PySample :=
  if resp.dates.isEmpty || resp.elements.isEmpty then []
  else
    match resp.elements.find? (fun e => e.etype == "price") with
    | none => []
    | some pc =>
      ft_build_history resp.dates
        (match pc.componentSeries.find? (fun s => s.stype == "Close") with
         | some s => s.values
         | none => [])

/-- The sort key relation of `history.sort(key=lambda x: x["time"])`:
aware datetimes compare by absolute instant. -/
def ftLe (a b : PySample) : Prop :=
  a.time.instant ≤ b.time.instant

instance : DecidableRel ftLe := fun a b =>
  inferInstanceAs (Decidable (a.time.instant ≤ b.time.instant))

/-- The strict version of the sort key, used to state distinctness of
timestamps. -/
def ftLt (a b : PySample) : Prop :=
  a.time.instant < b.time.instant

instance : DecidableRel ftLt := fun a b =>
  inferInstanceAs (Decidable (a.time.instant < b.time.instant))

/-- Python's `list.sort` is a stable sort; `List.insertionSort` is the
stable sort Mathlib provides, so it models `history.sort(key=...)`
(ft.py line 178). -/
def ft_sort (l : List PySample) : List PySample :=
  List.insertionSort ftLe l

/-- The selection core of `ft.py Source.get_historical_price` lines
177-191 on an already-fetched history and a normalised target instant
`T`: sort ascending, scan `reversed(history)` for the first entry with
time `≤ T` (`best_match`), then the staleness gate
`(time - best_match["time"]).days <= 7`. -/
def ft_historical_select (history : List PySample) (T : Int) : Option PySample :=
  match (ft_sort history).reverse.find? (fun e => decide (e.time.instant ≤ T)) with
  | none => none
  | some e => if timedeltaDays (T - e.time.instant) ≤ 7 then some e else none

/-- `ft.py Source.get_latest_price` lines 148-153 on a fetched history:
`None` on an empty list, else `history[-1]` wrapped as a
`SourcePrice` with no currency. -/
def ft_latest_core (history : List PySample) : Option SourcePrice :=
  match history.getLast? with
  | none => none
  | some s => some ⟨s.price, s.time, none⟩

/-- The `days` argument `ft.py get_latest_price` passes to
`_fetch_history` (line 148). -/
def ft_latest_lookback_days : Int := 5

/-- The lookback computation of `ft.py get_historical_price` lines
168-173: `days_diff = (now - time).days + 7`, clamped below by 1, and
the fetch uses `max(days_diff, 30)`.  `now` and `tNorm` are absolute
instants. -/
def ft_lookback_days (now tNorm : Int) : Int :=
  max (max (timedeltaDays (now - tNorm) + 7) 1) 30

/-- Error wrapping of `ft.py get_latest_price` lines 154-157: an
`FTError` is re-raised with the ticker appended; any other exception
becomes an `FTError` with an "Unexpected error" message. -/
def ft_wrap_latest (ticker : String) : PyExc → PyExc
  | .ftError m => .ftError (m ++ " (ticker: " ++ ticker ++ ")")
  | e => .ftError ("Unexpected error for ticker " ++ ticker ++ ": " ++ e.msg)

/-- Error wrapping of `ft.py get_historical_price` lines 192-197. -/
def ft_wrap_hist (ticker : String) (tNorm : DateTime) : PyExc → PyExc
  | .ftError m => .ftError (m ++ " (ticker: " ++ ticker ++ ")")
  | e => .ftError ("Unexpected error for ticker " ++ ticker ++ " at "
      ++ toString tNorm.wall ++ ": " ++ e.msg)

/-- `ft.py Source.get_latest_price`: the fetch collaborator's outcome
(resolution + POST + JSON decode, every internal failure of which is
already an `FTError` per `get_url`/`post_json`/`_fetch_history`, and
any unexpected failure some other exception) is the `fetched` input;
the facade wraps every escaping exception. -/
def ft_get_latest_price (ticker : String) (fetched : Except PyExc FTResponse) :
    Except PyExc (Option SourcePrice) :=
  match fetched with
  | .error e => .error (ft_wrap_latest ticker e)
  | .ok resp => .ok (ft_latest_core (ft_fetch_history resp))

/-- `ft.py Source.get_historical_price`: normalise the target time to
aware UTC, fetch (collaborator outcome `fetched`), select with the
as-of scan and staleness gate; the facade wraps every escaping
exception. -/
def ft_get_historical_price (ticker : String) (t : DateTime)
    (fetched : Except PyExc FTResponse) : Except PyExc (Option SourcePrice) :=
  let tNorm := pyNormalizeUTC t
  match fetched with
  | .error e => .error (ft_wrap_hist ticker tNorm e)
  | .ok resp =>
    .ok ((ft_historical_select (ft_fetch_history resp) tNorm.instant).map
      (fun e => ⟨e.price, e.time, none⟩))

/-! ## Provider A: the xid pattern matcher

`ft.py _get_xid` lines 75-84 run `re.search` with the pattern

  `(?:xid|&quot;xid&quot;)\s*[:=]\s*(?:["\x27]|&quot;)?(\d+)(?:["\x27]|&quot;)?`

over the tearsheet markup and return group 1.  The matcher below is a
direct character-level embedding of that concrete pattern with
`re.search` leftmost-first semantics: positions are tried left to
right; at a position the alternation tries `xid` before
`&quot;xid&quot;`; `\s*` is taken greedily (exact here, because none of
the characters the following tokens can match — `:`/`=`, quotes,
digits — is whitespace, so the greedy star never has to give back);
the optional opening quote is tried consumed-first and backtracks to
the empty match when no digit follows it (a quote character is not a
digit, so trying the digits at the unconsumed position is the full
backtracking behaviour); `\d+` is greedy, and the trailing optional
quote cannot fail, so the digit group is max-munch. -/

/-- Python `\s` membership (ASCII part; the inputs of interest are
ASCII). -/
def pyIsSpace (c : Char) : Bool :=
  c = ' ' || c = '\t' || c = '\n' || c = '\x0d' || c = '\x0b' || c = '\x0c'

/-- Match a literal character sequence as a prefix, returning the rest. -/
def stripLit : List Char → List Char → Option (List Char)
  | [], s => some s
  | _ :: _, [] => none
  | p :: ps, c :: cs => if c = p then stripLit ps cs else none

/-- Greedy `\s*`. -/
def skipSpaces : List Char → List Char
  | [] => []
  | c :: cs => if pyIsSpace c then skipSpaces cs else c :: cs

/-- Greedy `\d+`: the longest digit run and the rest; an empty run
means the match fails. -/
def takeDigits : List Char → List Char × List Char
  | [] => ([], [])
  | c :: cs =>
    if c.isDigit then
      let p := takeDigits cs
      (c :: p.1, p.2)
    else ([], c :: cs)

/-- The opening-quote alternation `(?:["\x27]|&quot;)`: `"` then `'`
then `&quot;`, in pattern order. -/
def stripQuote (s : List Char) : Option (List Char) :=
  match stripLit ['"'] s with
  | some r => some r
  | none =>
    match stripLit [Char.ofNat 39] s with
    | some r => some r
    | none => stripLit ("&quot;".data) s

/-- `(?:["\x27]|&quot;)?(\d+)` with backtracking on the optional
quote: try with the quote consumed, fall back to the empty match. -/
def matchDigits (s : List Char) : Option (List Char) :=
  let bare := fun (s1 : List Char) =>
    match takeDigits s1 with
    | ([], _) => none
    | (d :: ds, _) => some (d :: ds)
  match stripQuote s with
  | some s1 =>
    match bare s1 with
    | some ds => some ds
    | none => bare s
  | none => bare s

/-- Attempt the whole pattern anchored at the current position:
key alternation, `\s*[:=]\s*`, then the quoted digit group. -/
def xidMatchAt (s : List Char) : Option (List Char) :=
  let cont := fun (rest : List Char) =>
    match skipSpaces rest with
    | [] => none
    | c :: cs =>
      if c = ':' || c = '=' then matchDigits (skipSpaces cs) else none
  match stripLit ("xid".data) s with
  | some r =>
    match cont r with
    | some ds => some ds
    | none => (stripLit ("&quot;xid&quot;".data) s).bind cont
  | none => (stripLit ("&quot;xid&quot;".data) s).bind cont

/-- `re.search`: try each start position left to right, first success
wins. -/
def xidSearch : List Char → Option (List Char)
  | [] => none
  | c :: cs =>
    match xidMatchAt (c :: cs) with
    | some ds => some ds
    | none => xidSearch cs

/-- The pure content of `ft.py _get_xid`: the digit group extracted
from the markup, `none` when the pattern does not match (in which case
the Python raises `FTError`). -/
def ft_find_xid (content : String) : Option String :=
  (xidSearch content.data).map (fun ds => String.mk ds)

/-! ## Provider B: tsp.py -/

/-- The `TSP_FUND_NAMES` list (tsp.py lines 29-46). -/
def TSP_FUND_NAMES : List String :=
  ["LInco", "L2030", "L2035", "L2040", "L2045", "L2050", "L2055",
   "L2060", "L2065", "L2070", "L2075", "GFund", "FFund", "CFund",
   "SFund", "IFund"]

/-- One decoded CSV row: the `Date` cell as a day index (the string
`"YYYY-MM-DD"` parsed by `strptime`; `none` for a blank cell, which the
loop skips), and the sixteen fund cells in the fixed column order
(`none` for a blank cell, which `parse_tsp_csv` maps to `Decimal()`,
i.e. zero). -/
structure TSPRow where
  date : Option Int
  cells : Fin 16 → Option ℚ

/-- The per-date fund values after the blank-to-zero conversion of
tsp.py line 101. -/
def tspRowVals (row : TSPRow) : Fin 16 → ℚ :=
  fun i => (row.cells i).getD 0

/-- Python dict assignment `data[date] = ...`: replace in place when
the key exists (insertion order kept), append otherwise. -/
def dictInsert (k : Int) (v : Fin 16 → ℚ) :
    List (Int × (Fin 16 → ℚ)) → List (Int × (Fin 16 → ℚ))
  | [] => [(k, v)]
  | (k', v') :: rest =>
    if k = k' then (k, v) :: rest else (k', v') :: dictInsert k v rest

/-- The row loop of `parse_tsp_csv` (tsp.py lines 76-102): skip blank
dates, key the converted values by the trading-day datetime (all rows
share the 16:00 UTC-4 tag, so keys compare exactly like the day
index used here). -/
def tsp_collect (rows : List TSPRow) : List (Int × (Fin 16 → ℚ)) :=
  rows.foldl
    (fun acc row =>
      match row.date with
      | none => acc
      | some d => dictInsert d (tspRowVals row) acc)
    []

/-- The descending key order of
`sorted(data.items(), key=lambda t: t[0], reverse=True)`. -/
def tspGe (a b : Int × (Fin 16 → ℚ)) : Prop :=
  b.1 ≤ a.1

instance : DecidableRel tspGe := fun a b =>
  inferInstanceAs (Decidable (b.1 ≤ a.1))

instance : IsTotal (Int × (Fin 16 → ℚ)) tspGe :=
  ⟨fun a b => le_total b.1 a.1⟩

instance : IsTrans (Int × (Fin 16 → ℚ)) tspGe :=
  ⟨fun _ _ _ h1 h2 => le_trans h2 h1⟩

/-- `parse_tsp_csv` (tsp.py line 104): the collected dict sorted with
newest date first (dict keys are distinct, so any stable descending
sort gives the same list). -/
def tsp_parse (rows : List TSPRow) : List (Int × (Fin 16 → ℚ)) :=
  List.insertionSort tspGe (tsp_collect rows)

/-- The trading-day close datetime a TSP day index is keyed by:
`date.replace(hour=16, tzinfo=TIMEZONE)` where `TIMEZONE` is the fixed
UTC-4 offset (tsp.py lines 27, 80-81). -/
def mkTSPTime (d : Int) : DateTime :=
  ⟨d * 86400 + 16 * 3600, some (-(4 * 3600))⟩

/-- The number of days of data `tsp.py get_historical_price` requests:
`startdate = time - timedelta(days=14)` (line 141). -/
def tsp_window_days : Int := 14

/-- `tsp.py Source.get_historical_price` (lines 126-160) on a decoded
CSV: validate the fund name (TSPError); `next(iter(result.items()))`
raises `StopIteration` when the parsed series is empty; otherwise the
newest row's cell for the fund is returned with the USD currency.  The
target `time` only shapes the requested window, never the selection,
so it is unused once the response is given.  (The `except KeyError`
around the list indexing can never fire: a valid fund's index is below
16 and each row carries 16 cells.) -/
def tsp_get_historical_price (fund : String) (time : DateTime)
    (rows : List TSPRow) : Except PyExc SourcePrice :=
  if h : fund ∈ TSP_FUND_NAMES then
    match tsp_parse rows with
    | [] => .error .stopIteration
    | (d, vals) :: _ =>
      .ok ⟨vals ⟨TSP_FUND_NAMES.indexOf fund,
                 by simpa using List.indexOf_lt_length.mpr h⟩,
           mkTSPTime d, some "USD"⟩
  else
    .error (.tspError ("Invalid TSP Fund Name " ++ fund))

/-- `tsp.py Source.get_latest_price` (lines 122-124): delegate to
`get_historical_price` at `datetime.datetime.now()` (a naive local
datetime, here the `now` input). -/
def tsp_get_latest_price (fund : String) (now : DateTime)
    (rows : List TSPRow) : Except PyExc SourcePrice :=
  tsp_get_historical_price fund now rows

/-! ## Helper lemmas -/

/-- The positional pairing loop produces nothing once the `Close`
values are exhausted (`i < len(closes)` fails for every later index). -/
theorem ft_build_history_nil : ∀ ds : List (Option Int), ft_build_history ds [] = []
  | [] => rfl
  | _ :: ds => ft_build_history_nil ds

/-- Every sample the pairing loop produces is tagged UTC. -/
theorem ft_build_history_tz :
    ∀ (ds : List (Option Int)) (cs : List (Option ℚ)) (s : PySample),
      s ∈ ft_build_history ds cs → s.time.tz = some 0
  | [], _, s, h => by cases h
  | _ :: ds, [], s, h => ft_build_history_tz ds [] s h
  | d :: ds, c :: cs, s, h => by
    cases c with
    | none => exact ft_build_history_tz ds cs s h
    | some v =>
      cases d with
      | none => exact ft_build_history_tz ds cs s h
      | some w =>
        rcases List.mem_cons.mp h with h | h
        · rw [h]
        · exact ft_build_history_tz ds cs s h

/-- Inserting an element strictly above everything in the list appends
it at the end. -/
theorem ft_orderedInsert_last (y : PySample) :
    ∀ ys : List PySample, (∀ z ∈ ys, ¬ ftLe y z) →
      List.orderedInsert ftLe y ys = ys ++ [y]
  | [], _ => rfl
  | z :: zs, h => by
    rw [List.orderedInsert, if_neg (h z (List.mem_cons_self z zs))]
    rw [ft_orderedInsert_last y zs (fun w hw => h w (List.mem_cons_of_mem z hw))]
    rfl

/-- A list that is already sorted by time is untouched by the
defensive sort. -/
theorem ft_sort_of_sorted (l : List PySample) (h : List.Pairwise ftLe l) :
    ft_sort l = l :=
  List.Sorted.insertionSort_eq h

/-- Sorting the reverse of a strictly time-ascending list recovers the
list itself. -/
theorem ft_sort_reverse (l : List PySample) (h : List.Pairwise ftLt l) :
    ft_sort l.reverse = l := by
  induction l using List.reverseRecOn with
  | nil => rfl
  | append_singleton ys y ih =>
    have hsplit := List.pairwise_append.mp h
    have hys : List.Pairwise ftLt ys := hsplit.1
    have hlast : ∀ z ∈ ys, ftLt z y := fun z hz =>
      hsplit.2.2 z hz y (List.mem_singleton_self y)
    have : (ys ++ [y]).reverse = y :: ys.reverse := by
      rw [List.reverse_append, List.reverse_singleton, List.singleton_append]
    rw [this]
    show List.insertionSort ftLe (y :: ys.reverse) = ys ++ [y]
    rw [List.insertionSort]
    have ihs : List.insertionSort ftLe ys.reverse = ys := ih hys
    rw [ihs]
    exact ft_orderedInsert_last y ys (fun z hz => not_le.mpr (hlast z hz))

/-- In a time-sorted history the final element (`history[-1]`) bounds
every element's instant. -/
theorem ft_sorted_getLast_max (l : List PySample) (h : List.Pairwise ftLe l)
    (s : PySample) (hs : l.getLast? = some s) :
    ∀ x ∈ l, x.time.instant ≤ s.time.instant := by
  induction l using List.reverseRecOn with
  | nil => cases hs
  | append_singleton ys y _ =>
    rw [List.getLast?_concat ys] at hs
    cases Option.some_inj.mp hs
    intro x hx
    rcases List.mem_append.mp hx with hx | hx
    · exact (List.pairwise_append.mp h).2.2 x hx s (List.mem_singleton_self s)
    · rw [List.mem_singleton.mp hx]

/-! ## Claim theorems -/

/-- C6: for every target time, provider A's historical lookback window
equals `max(daysBetween(now, T) + 7, 30)` days (ft.py lines 168-173):
it is never below the floor of 30 and always covers the now-to-T
day distance plus the 7-day buffer. -/
theorem c6_lookback_window (now tNorm : Int) :
    ft_lookback_days now tNorm = max (timedeltaDays (now - tNorm) + 7) 30 ∧
    30 ≤ ft_lookback_days now tNorm ∧
    timedeltaDays (now - tNorm) + 7 ≤ ft_lookback_days now tNorm := by
  unfold ft_lookback_days
  refine ⟨?_, le_max_right _ _, le_trans (le_max_left _ _) (le_max_left _ _)⟩
  rw [max_assoc]
  norm_num

/-- C8: the xid pattern matcher extracts the numeric identifier from
each of the three encodings `xid: '123456'`, `xid="654321"` and
`&quot;xid&quot;:&quot;987654&quot;` (ft.py lines 75-84, mirrored by
the cases of `ft_test.py test_get_xid_regex_variations`). -/
theorem c8_xid_encodings :
    ft_find_xid ("xid: " ++ String.mk [Char.ofNat 39] ++ "123456"
        ++ String.mk [Char.ofNat 39]) = some ("123456") ∧
    ft_find_xid ("xid=\"654321\"") = some ("654321") ∧
    ft_find_xid ("&quot;xid&quot;:&quot;987654&quot;") = some ("987654") := by
  refine ⟨?_, ?_, ?_⟩ <;> rfl

/-- C10: provider B's latest-price operation is definitionally the
historical-price operation invoked at the current time (tsp.py lines
122-124), so on any decoded response the two return the same record or
raise the same error. -/
theorem c10_latest_is_historical_now (fund : String) (now : DateTime)
    (rows : List TSPRow) :
    tsp_get_latest_price fund now rows = tsp_get_historical_price fund now rows :=
  rfl

/-- C1 (amended): the historical selection returns only members of the
series whose time is at or before the (UTC-normalised) target `T`;
when every sample is strictly after `T` the result is `none` rather
than an error; and the first sample of the reverse scan over the
sorted series is returned whenever it passes the 7-day staleness gate
(which the original claim omitted). -/
theorem c1_asof_selection (l : List PySample) (T : Int) :
    (∀ e, ft_historical_select l T = some e → e ∈ l ∧ e.time.instant ≤ T) ∧
    ((∀ e ∈ l, T < e.time.instant) → ft_historical_select l T = none) ∧
    (∀ e, (ft_sort l).reverse.find? (fun s => decide (s.time.instant ≤ T)) = some e →
      timedeltaDays (T - e.time.instant) ≤ 7 → ft_historical_select l T = some e) ∧
    (∀ w : Int, (pyNormalizeUTC ⟨w, none⟩).instant = w) := by
  refine ⟨?_, ?_, ?_, fun w => by simp [pyNormalizeUTC, DateTime.instant]⟩
  · intro e he
    unfold ft_historical_select at he
    cases hf : (ft_sort l).reverse.find? (fun s => decide (s.time.instant ≤ T)) with
    | none => rw [hf] at he; cases he
    | some e' =>
      rw [hf] at he
      have he2 : (if timedeltaDays (T - e'.time.instant) ≤ 7
          then some e' else none) = some e := he
      have hmem : e' ∈ l := by
        have := List.mem_of_find?_eq_some hf
        rw [List.mem_reverse] at this
        exact (List.mem_insertionSort ftLe).mp this
      have hp := List.find?_some hf
      have hle : e'.time.instant ≤ T := of_decide_eq_true hp
      by_cases hd : timedeltaDays (T - e'.time.instant) ≤ 7
      · rw [if_pos hd] at he2
        cases Option.some_inj.mp he2
        exact ⟨hmem, hle⟩
      · rw [if_neg hd] at he2; cases he2
  · intro hall
    unfold ft_historical_select
    cases hf : (ft_sort l).reverse.find? (fun s => decide (s.time.instant ≤ T)) with
    | none => rfl
    | some e =>
      exfalso
      have hmem : e ∈ l := by
        have := List.mem_of_find?_eq_some hf
        rw [List.mem_reverse] at this
        exact (List.mem_insertionSort ftLe).mp this
      have hp := List.find?_some hf
      exact absurd (of_decide_eq_true hp) (not_le.mpr (hall e hmem))
  · intro e hf hd
    unfold ft_historical_select
    rw [hf]
    exact if_pos hd

/-- C1 witness: a series lying entirely after the target time yields
`none`. -/
theorem c1_asof_selection_witness :
    ft_historical_select [⟨⟨100, some 0⟩, 5⟩] 50 = none :=
  (c1_asof_selection [⟨⟨100, some 0⟩, 5⟩] 50).2.1 (by decide)

/-- C1 counterexample: the claim as stated says the nearest
prior-or-equal sample is returned, but a sample eight days before the
target time is discarded by the staleness gate and the operation
returns `none` instead of that sample. -/
theorem c1_stale_match_dropped :
    (⟨⟨0, some 0⟩, 5⟩ : PySample).time.instant ≤ 691200 ∧
    ft_historical_select [⟨⟨0, some 0⟩, 5⟩] 691200 = none := by
  constructor
  · decide
  · rfl

/-- C2 (amended): the 7-day staleness rule belongs to provider A
alone.  For provider A, once the reverse scan finds the nearest
prior-or-equal sample, a whole-day gap above 7 yields `none` and a gap
of exactly 7 days yields the match (ft.py lines 186-191).  Provider
B's historical lookup never consults the target time during selection:
on the same decoded response its result is identical for any two
target times, so no staleness cut-off exists there. -/
theorem c2_staleness_boundary :
    (∀ (l : List PySample) (T : Int) (e : PySample),
      (ft_sort l).reverse.find? (fun s => decide (s.time.instant ≤ T)) = some e →
        (7 < timedeltaDays (T - e.time.instant) → ft_historical_select l T = none) ∧
        (T - e.time.instant = 7 * 86400 → ft_historical_select l T = some e)) ∧
    (∀ (fund : String) (t t' : DateTime) (rows : List TSPRow),
      tsp_get_historical_price fund t rows = tsp_get_historical_price fund t' rows) := by
  constructor
  · intro l T e hf
    constructor
    · intro hgap
      unfold ft_historical_select
      rw [hf]
      exact if_neg (not_le.mpr hgap)
    · intro hexact
      unfold ft_historical_select
      rw [hf]
      refine if_pos ?_
      rw [hexact]
      decide
  · intro fund t t' rows
    rfl

/-- C2 witness: with a single sample exactly 7 days before the target
the match is returned, and with the same sample 8 days before the
target the result is `none`. -/
theorem c2_staleness_boundary_witness :
    ft_historical_select [⟨⟨0, some 0⟩, 3⟩] 604800 = some ⟨⟨0, some 0⟩, 3⟩ ∧
    ft_historical_select [⟨⟨0, some 0⟩, 3⟩] 691200 = none := by
  constructor
  · exact ((c2_staleness_boundary.1 [⟨⟨0, some 0⟩, 3⟩] 604800 ⟨⟨0, some 0⟩, 3⟩
      (by rfl)).2 (by decide))
  · exact ((c2_staleness_boundary.1 [⟨⟨0, some 0⟩, 3⟩] 691200 ⟨⟨0, some 0⟩, 3⟩
      (by rfl)).1 (by decide))

/-- C2 counterexample: provider B returns the newest fetched row even
when it is about 99 days older than the requested time, where the
claim demands "not found"; the staleness rule therefore does not apply
to both providers. -/
theorem c2_tsp_has_no_staleness :
    tsp_get_historical_price ("GFund") ⟨8640000, none⟩
        [⟨some 0, fun _ => some 1⟩] = .ok ⟨1, mkTSPTime 0, some "USD"⟩ ∧
    7 * 86400 < (⟨8640000, none⟩ : DateTime).instant - (mkTSPTime 0).instant := by
  constructor
  · rfl
  · decide

/-- C3 (amended): for provider A an empty normalized series — in
particular a response with no dates or with no `"Close"` component —
makes both public operations answer `None`, never an exception; but
provider B raises a bare `StopIteration` on an empty CSV instead of
returning "not found". -/
theorem c3_empty_series :
    (∀ (ticker : String) (t : DateTime) (resp : FTResponse),
      ft_fetch_history resp = [] →
        ft_get_latest_price ticker (.ok resp) = .ok none ∧
        ft_get_historical_price ticker t (.ok resp) = .ok none) ∧
    (∀ resp : FTResponse, resp.dates = [] → ft_fetch_history resp = []) ∧
    (∀ resp : FTResponse, ft_closes resp = [] → ft_fetch_history resp = []) ∧
    (∀ (fund : String) (t : DateTime), fund ∈ TSP_FUND_NAMES →
      tsp_get_historical_price fund t [] = .error .stopIteration) := by
  refine ⟨?_, ?_, ?_, ?_⟩
  · intro ticker t resp h
    constructor
    · show Except.ok (ft_latest_core (ft_fetch_history resp)) = Except.ok none
      rw [h]
      rfl
    · show Except.ok ((ft_historical_select (ft_fetch_history resp)
        (pyNormalizeUTC t).instant).map
          (fun e => (⟨e.price, e.time, none⟩ : SourcePrice))) = Except.ok none
      rw [h]
      rfl
  · intro resp h
    unfold ft_fetch_history
    rw [if_pos]
    rw [h]
    simp
  · intro resp h
    unfold ft_closes at h
    unfold ft_fetch_history
    by_cases hempty : resp.dates.isEmpty || resp.elements.isEmpty
    · rw [if_pos hempty]
    · rw [if_neg hempty]
      cases hf : resp.elements.find? (fun e => e.etype == "price") with
      | none => rfl
      | some pc =>
        rw [hf] at h
        have h2 : (match pc.componentSeries.find? (fun s => s.stype == "Close") with
                   | some s => s.values
                   | none => []) = ([] : List (Option ℚ)) := h
        show ft_build_history resp.dates
          (match pc.componentSeries.find? (fun s => s.stype == "Close") with
           | some s => s.values
           | none => []) = []
        rw [h2]
        exact ft_build_history_nil resp.dates
  · intro fund t hmem
    unfold tsp_get_historical_price
    rw [dif_pos hmem]
    rfl

/-- C3 witness: a response with empty dates and elements yields `None`
from provider A's latest-price operation, and provider B's empty CSV
raises. -/
theorem c3_empty_series_witness :
    ft_get_latest_price ("X") (.ok ⟨[], []⟩) = .ok none ∧
    tsp_get_historical_price ("GFund") ⟨0, none⟩ [] = .error .stopIteration := by
  constructor
  · exact (c3_empty_series.1 ("X") ⟨0, none⟩ ⟨[], []⟩ rfl).1
  · exact c3_empty_series.2.2.2 ("GFund") ⟨0, none⟩ (by decide)

/-- C3 counterexample: provider B's historical lookup on an empty CSV
terminates in a raised `StopIteration` — an exception, not the claimed
"not found" result. -/
theorem c3_tsp_empty_csv_raises :
    tsp_get_historical_price ("SFund") ⟨0, none⟩ [] = .error .stopIteration := by
  rfl

/-- C4 (amended): provider A's facade catches every escaping error and
re-raises it as an `FTError` whose message embeds the ticker, for both
public operations; provider B's only facade-level translation is the
unknown-fund validation — any other internal exception crosses the
boundary unwrapped. -/
theorem c4_error_wrapping (ticker : String) (t : DateTime)
    (fetched : Except PyExc FTResponse) :
    ((∃ v, ft_get_latest_price ticker fetched = .ok v) ∨
      (∃ pre post, ft_get_latest_price ticker fetched =
        .error (.ftError (pre ++ ticker ++ post)))) ∧
    ((∃ v, ft_get_historical_price ticker t fetched = .ok v) ∨
      (∃ pre post, ft_get_historical_price ticker t fetched =
        .error (.ftError (pre ++ ticker ++ post)))) ∧
    (∀ (fund : String) (tt : DateTime) (rows : List TSPRow),
      fund ∉ TSP_FUND_NAMES →
        tsp_get_historical_price fund tt rows =
          .error (.tspError ("Invalid TSP Fund Name " ++ fund))) := by
  refine ⟨?_, ?_, ?_⟩
  · cases fetched with
    | ok resp => exact Or.inl ⟨_, rfl⟩
    | error e =>
      refine Or.inr ?_
      cases e with
      | ftError m => exact ⟨m ++ " (ticker: ", ")", rfl⟩
      | tspError m =>
        exact ⟨"Unexpected error for ticker ", ": " ++ m,
          by rw [← String.append_assoc]; rfl⟩
      | stopIteration =>
        exact ⟨"Unexpected error for ticker ", ": " ++ "",
          by rw [← String.append_assoc]; rfl⟩
      | otherExc m =>
        exact ⟨"Unexpected error for ticker ", ": " ++ m,
          by rw [← String.append_assoc]; rfl⟩
  · cases fetched with
    | ok resp => exact Or.inl ⟨_, rfl⟩
    | error e =>
      refine Or.inr ?_
      cases e with
      | ftError m => exact ⟨m ++ " (ticker: ", ")", rfl⟩
      | tspError m =>
        exact ⟨"Unexpected error for ticker ",
          " at " ++ toString (pyNormalizeUTC t).wall ++ ": " ++ m,
          by rw [← String.append_assoc, ← String.append_assoc,
                 ← String.append_assoc]; rfl⟩
      | stopIteration =>
        exact ⟨"Unexpected error for ticker ",
          " at " ++ toString (pyNormalizeUTC t).wall ++ ": " ++ "",
          by rw [← String.append_assoc, ← String.append_assoc,
                 ← String.append_assoc]; rfl⟩
      | otherExc m =>
        exact ⟨"Unexpected error for ticker ",
          " at " ++ toString (pyNormalizeUTC t).wall ++ ": " ++ m,
          by rw [← String.append_assoc, ← String.append_assoc,
                 ← String.append_assoc]; rfl⟩
  · intro fund tt rows hmem
    unfold tsp_get_historical_price
    rw [dif_neg hmem]

/-- C4 witness: provider B rejects an unknown fund with its provider
error type. -/
theorem c4_error_wrapping_witness :
    tsp_get_historical_price ("ZFund") ⟨0, none⟩ [] =
      .error (.tspError ("Invalid TSP Fund Name " ++ "ZFund")) :=
  (c4_error_wrapping ("T") ⟨0, none⟩ (.ok ⟨[], []⟩)).2.2 ("ZFund") ⟨0, none⟩ []
    (by decide)

/-- C4 counterexample: provider B's historical lookup on an empty CSV
lets Python's internal `StopIteration` cross the public boundary; it
is not the provider-specific error type, so the claim fails for
provider B. -/
theorem c4_tsp_unwrapped_exception :
    tsp_get_historical_price ("CFund") ⟨0, none⟩ [] = .error .stopIteration ∧
    (∀ m, PyExc.stopIteration ≠ PyExc.tspError m) ∧
    (∀ m, PyExc.stopIteration ≠ PyExc.ftError m) :=
  ⟨rfl, fun _ h => PyExc.noConfusion h, fun _ h => PyExc.noConfusion h⟩

/-- C5 (amended): both latest-price operations request a lookback of
at least 5 calendar days (5 for provider A, 14 for provider B).
Provider A returns `history[-1]`, the final sample in delivered order,
which is the chronologically last sample exactly when the normalized
series arrives ascending by time (the original claim's "regardless of
order" fails, see the counterexample); provider B returns the
maximum-timestamp row of its parsed series regardless of delivery
order. -/
theorem c5_latest_price :
    (5 : Int) ≤ ft_latest_lookback_days ∧
    (5 : Int) ≤ tsp_window_days ∧
    (∀ (ticker : String) (resp : FTResponse) (s : PySample),
      List.Pairwise ftLe (ft_fetch_history resp) →
      (ft_fetch_history resp).getLast? = some s →
        ft_get_latest_price ticker (.ok resp) = .ok (some ⟨s.price, s.time, none⟩) ∧
        ∀ x ∈ ft_fetch_history resp, x.time.instant ≤ s.time.instant) ∧
    (∀ (fund : String) (now : DateTime) (rows : List TSPRow) (sp : SourcePrice),
      tsp_get_latest_price fund now rows = .ok sp →
      ∀ e ∈ tsp_parse rows, (mkTSPTime e.1).instant ≤ sp.time.instant) := by
  refine ⟨by norm_num [ft_latest_lookback_days], by norm_num [tsp_window_days],
    ?_, ?_⟩
  · intro ticker resp s hsorted hlast
    constructor
    · show Except.ok (ft_latest_core (ft_fetch_history resp)) =
        Except.ok (some ⟨s.price, s.time, none⟩)
      unfold ft_latest_core
      rw [hlast]
    · exact ft_sorted_getLast_max (ft_fetch_history resp) hsorted s hlast
  · intro fund now rows sp h
    unfold tsp_get_latest_price tsp_get_historical_price at h
    by_cases hmem : fund ∈ TSP_FUND_NAMES
    · rw [dif_pos hmem] at h
      have hsorted : List.Sorted tspGe (tsp_parse rows) :=
        List.sorted_insertionSort tspGe (tsp_collect rows)
      cases hp : tsp_parse rows with
      | nil =>
        rw [hp] at h
        exact absurd h (by simp)
      | cons hd tl =>
        obtain ⟨d, vals⟩ := hd
        rw [hp] at h hsorted
        have h2 : sp = ⟨vals ⟨TSP_FUND_NAMES.indexOf fund,
            by simpa using List.indexOf_lt_length.mpr hmem⟩,
            mkTSPTime d, some "USD"⟩ := by
          have h3 := h
          simp only [Except.ok.injEq] at h3
          exact h3.symm
        intro e he
        rw [h2]
        have hled : e.1 ≤ d := by
          rcases List.mem_cons.mp he with rfl | he
          · exact le_rfl
          · exact (List.pairwise_cons.mp hsorted).1 e he
        show (mkTSPTime e.1).instant ≤ (mkTSPTime d).instant
        simp only [mkTSPTime, DateTime.instant, Option.getD]
        omega
    · rw [dif_neg hmem] at h
      exact absurd h (by simp)

/-- C5 witness: on a series delivered ascending, provider A's latest
price is the maximum-timestamp sample. -/
theorem c5_latest_price_witness :
    ft_get_latest_price ("X") (.ok ⟨[some 0, some 86400],
      [⟨"price", [⟨"Close", [some 1, some 2]⟩]⟩]⟩) =
      .ok (some ⟨2, ⟨86400, some 0⟩, none⟩) :=
  (c5_latest_price.2.2.1 ("X") ⟨[some 0, some 86400],
    [⟨"price", [⟨"Close", [some 1, some 2]⟩]⟩]⟩ ⟨⟨86400, some 0⟩, 2⟩
    (by decide) (by decide)).1

/-- C5 counterexample: when the provider delivers the samples
newest-first, provider A's latest-price operation returns the last
delivered sample, whose timestamp is strictly below another sample's
timestamp — not the chronologically last sample the claim requires. -/
theorem c5_latest_not_chronological :
    ft_get_latest_price ("X") (.ok ⟨[some 86400, some 0],
      [⟨"price", [⟨"Close", [some 1, some 2]⟩]⟩]⟩) =
      .ok (some ⟨2, ⟨0, some 0⟩, none⟩) ∧
    (⟨⟨86400, some 0⟩, 1⟩ : PySample) ∈ ft_fetch_history ⟨[some 86400, some 0],
      [⟨"price", [⟨"Close", [some 1, some 2]⟩]⟩]⟩ ∧
    (⟨0, some 0⟩ : DateTime).instant < (⟨86400, some 0⟩ : DateTime).instant := by
  refine ⟨rfl, by decide, by decide⟩

/-- C7 (amended): for a series whose timestamps are pairwise distinct,
feeding the ascending order and the reverse (descending) order into
the historical selection yields identical results; the distinctness
hypothesis is necessary, see the tie counterexample. -/
theorem c7_order_insensitive (l : List PySample) (T : Int)
    (h : List.Pairwise ftLt l) :
    ft_historical_select l T = ft_historical_select l.reverse T := by
  unfold ft_historical_select
  rw [show ft_sort l.reverse = l from ft_sort_reverse l h,
      show ft_sort l = l from ft_sort_of_sorted l (h.imp (fun hab => le_of_lt hab))]

/-- C7 witness: a concrete strictly-ascending two-sample series gives
the same answer in both orders. -/
theorem c7_order_insensitive_witness :
    ft_historical_select [⟨⟨0, some 0⟩, 1⟩, ⟨⟨86400, some 0⟩, 2⟩] 86400 =
      ft_historical_select ([⟨⟨0, some 0⟩, 1⟩, ⟨⟨86400, some 0⟩, 2⟩]).reverse 86400 :=
  c7_order_insensitive [⟨⟨0, some 0⟩, 1⟩, ⟨⟨86400, some 0⟩, 2⟩] 86400 (by decide)

/-- C7 counterexample: two samples share a timestamp with different
prices; the ascending presentation and its reverse-sorted permutation
select different prices, because the stable sort preserves the input
order of the tied samples and the reverse scan takes the last one. -/
theorem c7_duplicate_timestamp_tie :
    ft_historical_select [⟨⟨0, some 0⟩, 10⟩, ⟨⟨0, some 0⟩, 20⟩] 0 =
      some ⟨⟨0, some 0⟩, 20⟩ ∧
    ft_historical_select [⟨⟨0, some 0⟩, 20⟩, ⟨⟨0, some 0⟩, 10⟩] 0 =
      some ⟨⟨0, some 0⟩, 10⟩ ∧
    (10 : ℚ) ≠ 20 := by
  refine ⟨rfl, rfl, by norm_num⟩

/-- C9 (amended): no naive timestamp leaves either parsing boundary —
provider A tags every sample UTC, and every record provider B returns
carries the fixed UTC-4 offset with a 16:00 wall clock.  The
non-negativity half of the original claim is not enforced by the code:
the parsers pass provider-reported values through unchanged, so a
negative feed value produces a negative price (see counterexample). -/
theorem c9_timezone_awareness :
    (∀ (resp : FTResponse) (s : PySample), s ∈ ft_fetch_history resp →
      s.time.tz = some 0) ∧
    (∀ (fund : String) (t : DateTime) (rows : List TSPRow) (sp : SourcePrice),
      tsp_get_historical_price fund t rows = .ok sp →
        sp.time.tz = some (-(4 * 3600)) ∧ sp.time.wall % 86400 = 16 * 3600) := by
  constructor
  · intro resp s h
    unfold ft_fetch_history at h
    by_cases hempty : resp.dates.isEmpty || resp.elements.isEmpty
    · rw [if_pos hempty] at h
      cases h
    · rw [if_neg hempty] at h
      cases hf : resp.elements.find? (fun e => e.etype == "price") with
      | none =>
        rw [hf] at h
        have h2 : s ∈ ([] : List PySample) := h
        cases h2
      | some pc =>
        rw [hf] at h
        have h2 : s ∈ ft_build_history resp.dates
            (match pc.componentSeries.find? (fun s => s.stype == "Close") with
             | some s => s.values
             | none => []) := h
        exact ft_build_history_tz _ _ s h2
  · intro fund t rows sp h
    unfold tsp_get_historical_price at h
    by_cases hmem : fund ∈ TSP_FUND_NAMES
    · rw [dif_pos hmem] at h
      cases hp : tsp_parse rows with
      | nil =>
        rw [hp] at h
        exact absurd h (by simp)
      | cons hd tl =>
        obtain ⟨d, vals⟩ := hd
        rw [hp] at h
        have h2 : sp = ⟨vals ⟨TSP_FUND_NAMES.indexOf fund,
            by simpa using List.indexOf_lt_length.mpr hmem⟩,
            mkTSPTime d, some "USD"⟩ := by
          have h3 := h
          simp only [Except.ok.injEq] at h3
          exact h3.symm
        rw [h2]
        refine ⟨rfl, ?_⟩
        show (d * 86400 + 16 * 3600) % 86400 = 16 * 3600
        omega
    · rw [dif_neg hmem] at h
      exact absurd h (by simp)

/-- C9 witness: a concrete parsed sample from provider A is tagged
UTC, and a concrete record from provider B carries the fixed UTC-4
offset. -/
theorem c9_timezone_awareness_witness :
    (⟨⟨0, some 0⟩, (2 : ℚ)⟩ : PySample).time.tz = some 0 ∧
    (mkTSPTime 3).tz = some (-(4 * 3600)) := by
  constructor
  · exact c9_timezone_awareness.1 ⟨[some 0], [⟨"price", [⟨"Close", [some 2]⟩]⟩]⟩
      ⟨⟨0, some 0⟩, 2⟩ (by decide)
  · exact (c9_timezone_awareness.2 ("GFund") ⟨0, none⟩ [⟨some 3, fun _ => some 1⟩]
      ⟨1, mkTSPTime 3, some "USD"⟩ rfl).1

/-- C9 counterexample: a feed value of -1 flows through provider A's
parser into a sample with a negative price, refuting the claimed
non-negativity invariant. -/
theorem c9_negative_price_passthrough :
    ft_fetch_history ⟨[some 0], [⟨"price", [⟨"Close", [some (-1)]⟩]⟩]⟩ =
      [⟨⟨0, some 0⟩, -1⟩] ∧
    ((-1 : ℚ) < 0) := by
  refine ⟨rfl, by norm_num⟩

end Beanprice
